import Mathlib

set_option maxHeartbeats 1000000

namespace RedditScraper

/-!
Shallow embedding of the reddit_scraper repository:
infra/reddit.py (RedditClient), services/scraper.py (Scraper),
cli.py (build_paths, main). The checkpoint store
(services/progress.py, ProgressTracker) is not under src/ and is
modelled from its contract in the specification where needed.
-/

/-- Discovery record: the dict yielded by RedditClient.list_submission_ids
and RedditClient.search_submissions (fields id, created_utc, score,
link_flair_text), reddit.py lines 53-58 and 84-89. -/
structure DiscRecord where
  id : String
  created_utc : Int
  score : Int
  link_flair_text : Option String
deriving DecidableEq

/-- Embeds Python str.lower as a character-wise lowering of the data. -/
def lowerStr (s : String) : String := ⟨s.data.map Char.toLower⟩

/-- Embeds the construction "flair_set = \x7bf.lower() for f in flairs\x7d if flairs else None"
(reddit.py lines 37 and 76): a falsy value of flairs (None or the empty
list) yields None, otherwise the list of lowered flairs. -/
def mkFlairSet : Option (List String) → Option (List String)
  | none => none
  | some fs => if fs.isEmpty then none else some (fs.map lowerStr)

/-- Embeds the line "if min_score and sub.score < min_score: continue"
(reddit.py lines 49 and 80): the record is dropped iff min_score is
present, nonzero (Python truthiness), and the score is strictly below it. -/
def scoreDrop : Option Int → Int → Bool
  | none, _ => false
  | some m, sc => decide (m ≠ 0) && decide (sc < m)

/-- Embeds the line "if flair_set and (sub.link_flair_text or \x22\x22).lower() not in flair_set: continue"
(reddit.py lines 51 and 82): dropped iff the flair set is present and
nonempty and the lowered flair (empty string when absent) is not in it. -/
def flairDrop : Option (List String) → Option String → Bool
  | none, _ => false
  | some fset, flair => !fset.isEmpty && !(fset.contains (lowerStr (flair.getD "")))

/-- A record passes both the score filter and the flair filter. -/
def passes (minScore : Option Int) (fset : Option (List String)) (r : DiscRecord) : Bool :=
  !scoreDrop minScore r.score && !flairDrop fset r.link_flair_text

/-- Calendar date, the parse of a bare ISO date string YYYY-MM-DD. -/
structure Date where
  year : Int
  month : Nat
  day : Nat
deriving DecidableEq

/-- Days from the Unix epoch to a civil date (proleptic Gregorian). -/
def daysFromCivil (d : Date) : Int :=
  let y : Int := if d.month ≤ 2 then d.year - 1 else d.year
  let era : Int := (if 0 ≤ y then y else y - 399) / 400
  let yoe : Int := y - era * 400
  let mp : Int := (Int.ofNat d.month + 9) % 12
  let doy : Int := (153 * mp + 2) / 5 + Int.ofNat d.day - 1
  let doe : Int := yoe * 365 + yoe / 4 - yoe / 100 + doy
  era * 146097 + doe - 719468

/-- Embeds RedditClient._to_ts (reddit.py lines 112-117) on a bare ISO
date: datetime.fromisoformat gives a naive datetime at midnight of that
day, the naive value is stamped UTC, and its timestamp is the number of
days since the epoch times 86400 seconds. -/
def to_ts (d : Date) : Int := daysFromCivil d * 86400

/-- Embeds the loop body of RedditClient.list_submission_ids
(reddit.py lines 43-58) over a newest-first feed: break as soon as
created_utc is strictly below after; otherwise skip records newer than
before, records failing the score filter and records failing the flair
filter; yield the rest. Returns the yielded records together with the
number of feed records consumed from the iterator. -/
def listWalk (after before : Int) (minScore : Option Int) (fset : Option (List String)) :
    List DiscRecord → List DiscRecord × Nat
  | [] => ([], 0)
  | r :: rest =>
    if r.created_utc < after then ([], 1)
    else
      let p := listWalk after before minScore fset rest
      if r.created_utc > before then (p.1, p.2 + 1)
      else if scoreDrop minScore r.score then (p.1, p.2 + 1)
      else if flairDrop fset r.link_flair_text then (p.1, p.2 + 1)
      else (r :: p.1, p.2 + 1)

/-- Embeds RedditClient.list_submission_ids (reddit.py lines 28-58):
after = _to_ts(start_date), before = _to_ts(end_date) + 86399
(include end-day), flair_set built from the flairs argument, then the
walk over the newest-first feed. -/
def list_submission_ids (startDate endDate : Date) (minScore : Option Int)
    (flairs : Option (List String)) (feed : List DiscRecord) : List DiscRecord × Nat :=
  listWalk (to_ts startDate) (to_ts endDate + 86399) minScore (mkFlairSet flairs) feed

/-- Embeds the filtering loop of RedditClient.search_submissions
(reddit.py lines 79-89): every search result is kept unless the score
filter or the flair filter drops it; there is no date test and no break. -/
def searchWalk (minScore : Option Int) (fset : Option (List String)) :
    List DiscRecord → List DiscRecord
  | [] => []
  | r :: rest =>
    if scoreDrop minScore r.score then searchWalk minScore fset rest
    else if flairDrop fset r.link_flair_text then searchWalk minScore fset rest
    else r :: searchWalk minScore fset rest

/-- Embeds the query construction of RedditClient.search_submissions
(reddit.py line 75): a single disjunctive query, each keyword quoted and
joined with " OR ". -/
def buildQuery (keywords : List String) : String :=
  String.intercalate " OR " (keywords.map fun k => "\"" ++ k ++ "\"")

/-- The parameters of the one upstream search call issued by
RedditClient.search_submissions (reddit.py line 79): the query string,
sort="new" and the relative time_filter bucket. -/
structure SearchRequest where
  query : String
  sort : String
  time_filter : String
deriving DecidableEq

/-- Embeds RedditClient.search_submissions (reddit.py lines 61-89):
the issued request plus the filtered results of the returned feed. -/
def search_submissions (keywords : List String) (timeFilter : String)
    (minScore : Option Int) (flairs : Option (List String))
    (feed : List DiscRecord) : SearchRequest × List DiscRecord :=
  (⟨buildQuery keywords, "new", timeFilter⟩,
   searchWalk minScore (mkFlairSet flairs) feed)

/-- The discovery mode selected by Scraper.run (scraper.py lines 53-71). -/
inductive DiscoveryPlan where
  | searchMode (subreddit : String) (req : SearchRequest)
      (minScore : Option Int) (flairs : Option (List String))
  | rangeMode (subreddit : String) (startDate endDate : Date)
      (minScore : Option Int) (flairs : Option (List String))
deriving DecidableEq

/-- Embeds the branch at the top of Scraper.run (scraper.py lines 53-71):
"if self.keywords:" is Python truthiness, so a present nonempty keyword
list selects search mode with time_filter="year", anything else selects
range mode over the requested dates. -/
def scraperPlan (subreddit : String) (startDate endDate : Date) (minScore : Option Int)
    (flairs keywords : Option (List String)) : DiscoveryPlan :=
  match keywords with
  | some ks =>
    if ks.isEmpty then DiscoveryPlan.rangeMode subreddit startDate endDate minScore flairs
    else DiscoveryPlan.searchMode subreddit ⟨buildQuery ks, "new", "year"⟩ minScore flairs
  | none => DiscoveryPlan.rangeMode subreddit startDate endDate minScore flairs

/-- On a feed segment whose timestamps all reach the start boundary, the
walk never breaks: it consumes the whole segment, yields exactly the
records inside the end boundary that pass both filters, and continues
into the remainder of the feed. -/
theorem listWalk_no_break (after before : Int) (ms : Option Int) (fs : Option (List String))
    (pre rest : List DiscRecord) (h : ∀ x ∈ pre, after ≤ x.created_utc) :
    listWalk after before ms fs (pre ++ rest)
      = ((pre.filter fun x => decide (x.created_utc ≤ before) && passes ms fs x)
           ++ (listWalk after before ms fs rest).1,
         pre.length + (listWalk after before ms fs rest).2) := by
  induction pre with
  | nil => simp
  | cons r pre ih =>
    have hr : ¬ r.created_utc < after := not_lt.mpr (h r (by simp))
    have hpre : ∀ x ∈ pre, after ≤ x.created_utc := fun x hx => h x (by simp [hx])
    have ihx := ih hpre
    by_cases hb : r.created_utc > before
    · have hble : ¬ r.created_utc ≤ before := not_le.mpr hb
      simp [listWalk, hr, hb, ihx, List.filter_cons, hble]
      omega
    · have hble : r.created_utc ≤ before := not_lt.mp hb
      by_cases hs : scoreDrop ms r.score
      · simp [listWalk, hr, hb, hs, ihx, List.filter_cons, hble, passes]
        omega
      · by_cases hf : flairDrop fs r.link_flair_text
        · simp [listWalk, hr, hb, hs, hf, ihx, List.filter_cons, hble, passes]
          omega
        · simp [listWalk, hr, hb, hs, hf, ihx, List.filter_cons, hble, passes]
          omega

/-- The walk stops at once on a record strictly older than the start
boundary: that record is consumed but not yielded and nothing after it
is consumed. -/
theorem listWalk_break (after before : Int) (ms : Option Int) (fs : Option (List String))
    (r : DiscRecord) (post : List DiscRecord) (hr : r.created_utc < after) :
    listWalk after before ms fs (r :: post) = ([], 1) := by
  simp [listWalk, hr]

/-- The keyword-search filtering loop is exactly a filter by the shared
score and flair predicate. -/
theorem searchWalk_eq_filter (ms : Option Int) (fs : Option (List String))
    (feed : List DiscRecord) :
    searchWalk ms fs feed = feed.filter (passes ms fs) := by
  induction feed with
  | nil => rfl
  | cons r rest ih =>
    by_cases hs : scoreDrop ms r.score
    · simp [searchWalk, hs, ih, List.filter_cons, passes]
    · by_cases hf : flairDrop fs r.link_flair_text
      · simp [searchWalk, hs, hf, ih, List.filter_cons, passes]
      · simp [searchWalk, hs, hf, ih, List.filter_cons, passes]

/-- C3: for every newest-first feed, range-mode discovery terminates the
sequence (stops iterating, not merely filters) at the first record whose
creation timestamp is strictly below the start boundary, and skips
without terminating every record whose timestamp exceeds the end
boundary extended to end-of-day (end-date midnight UTC + 86399 seconds,
inclusive); the start boundary is midnight UTC of the start date; for
the feed with timestamps 100, 90, 50, 10 and start boundary 60 the walk
yields exactly the first two records and consumes only three. -/
theorem range_mode_early_termination (startDate endDate : Date) (ms : Option Int)
    (fl : Option (List String)) (pre post : List DiscRecord) (r : DiscRecord)
    (hpre : ∀ x ∈ pre, to_ts startDate ≤ x.created_utc)
    (hr : r.created_utc < to_ts startDate) :
    list_submission_ids startDate endDate ms fl (pre ++ r :: post)
      = (pre.filter fun x =>
            decide (x.created_utc ≤ to_ts endDate + 86399) && passes ms (mkFlairSet fl) x,
         pre.length + 1)
    ∧ to_ts startDate % 86400 = 0
    ∧ listWalk 60 1000 none none
        [⟨"p100", 100, 1, none⟩, ⟨"p90", 90, 1, none⟩, ⟨"p50", 50, 1, none⟩,
         ⟨"p10", 10, 1, none⟩]
        = ([⟨"p100", 100, 1, none⟩, ⟨"p90", 90, 1, none⟩], 3) := by
  refine ⟨?_, Int.mul_emod_left _ _, by decide⟩
  unfold list_submission_ids
  rw [listWalk_no_break (to_ts startDate) (to_ts endDate + 86399) ms (mkFlairSet fl)
        pre (r :: post) hpre,
      listWalk_break (to_ts startDate) (to_ts endDate + 86399) ms (mkFlairSet fl) r post hr]
  simp

/-- Witness for C3 at a concrete input: start date 1970-01-03 has start
boundary 172800, the feed record at 200000 is inside the window and is
yielded, the record at 100 terminates the walk, and the trailing record
is never consumed. -/
theorem range_mode_early_termination_witness :
    list_submission_ids ⟨1970, 1, 3⟩ ⟨1970, 1, 10⟩ none none
        [⟨"in", 200000, 1, none⟩, ⟨"old", 100, 1, none⟩, ⟨"tail", 5, 1, none⟩]
      = ([⟨"in", 200000, 1, none⟩], 2)
    ∧ to_ts ⟨1970, 1, 3⟩ % 86400 = 0
    ∧ listWalk 60 1000 none none
        [⟨"p100", 100, 1, none⟩, ⟨"p90", 90, 1, none⟩, ⟨"p50", 50, 1, none⟩,
         ⟨"p10", 10, 1, none⟩]
        = ([⟨"p100", 100, 1, none⟩, ⟨"p90", 90, 1, none⟩], 3) :=
  range_mode_early_termination ⟨1970, 1, 3⟩ ⟨1970, 1, 10⟩ none none
    [⟨"in", 200000, 1, none⟩] [⟨"tail", 5, 1, none⟩] ⟨"old", 100, 1, none⟩
    (by decide) (by decide)

/-- A record whose score is -1, used to exhibit the behaviour of the
score filter at a supplied threshold of 0. -/
def negScoreRec : DiscRecord := ⟨"neg", 50, -1, none⟩

/-- The record of the spec example with score 3. -/
def score3Rec : DiscRecord := ⟨"s3", 50, 3, none⟩

/-- The record of the spec example with flair Discussion. -/
def discussionRec : DiscRecord := ⟨"d1", 50, 10, some "Discussion"⟩

/-- C5 counterexample: with a supplied minimum score of 0, a record whose
score -1 is strictly below the threshold is nevertheless yielded in both
discovery modes, because the guard "if min_score and ..." treats a
supplied 0 as absent under Python truthiness. -/
theorem score_filter_zero_counterexample :
    negScoreRec.score < 0
    ∧ searchWalk (some 0) (mkFlairSet none) [negScoreRec] = [negScoreRec]
    ∧ (listWalk 0 1000 (some 0) (mkFlairSet none) [negScoreRec]).1 = [negScoreRec] := by
  decide

/-- Modelled from the spec: the filtering sentence of section 4.1 —
records with score strictly below a supplied minimum are dropped, and
records whose flair (treated as the empty string when absent) is not a
case-insensitive exact match to some allowed value are dropped; all
other records are kept. -/
def specKeep (minScore : Option Int) (flairs : Option (List String)) (r : DiscRecord) : Bool :=
  (match minScore with
   | none => true
   | some m => decide (m ≤ r.score)) &&
  (match flairs with
   | none => true
   | some fs => (fs.map lowerStr).contains (lowerStr (r.link_flair_text.getD "")))

/-- With a nonzero supplied minimum score, surviving the score guard is
exactly having a score at or above the threshold. -/
theorem not_scoreDrop_eq (m : Int) (hm : m ≠ 0) (sc : Int) :
    (!scoreDrop (some m) sc) = decide (m ≤ sc) := by
  by_cases hlt : sc < m
  · have hnle : ¬ m ≤ sc := not_le.mpr hlt
    simp [scoreDrop, hm, hlt, hnle]
  · have hle : m ≤ sc := not_lt.mp hlt
    simp [scoreDrop, hm, hlt, hle]

/-- With a nonempty supplied allow-list, surviving the flair guard is
exactly a lowered membership test. -/
theorem not_flairDrop_eq (fs : List String) (hfs : fs ≠ []) (flair : Option String) :
    (!flairDrop (some (fs.map lowerStr)) flair)
      = (fs.map lowerStr).contains (lowerStr (flair.getD "")) := by
  have h1 : (fs.map lowerStr).isEmpty = false := by
    simp [List.isEmpty_iff, hfs]
  simp [flairDrop, h1]

/-- On a feed entirely inside the window, the range walk yields exactly
the records passing the shared score and flair predicate. -/
theorem listWalk_in_window (after before : Int) (ms : Option Int) (fs : Option (List String))
    (feed : List DiscRecord)
    (hwin : ∀ x ∈ feed, after ≤ x.created_utc ∧ x.created_utc ≤ before) :
    (listWalk after before ms fs feed).1 = feed.filter (passes ms fs) := by
  have hlow : ∀ x ∈ feed, after ≤ x.created_utc := fun x hx => (hwin x hx).1
  have hwalk := listWalk_no_break after before ms fs feed [] hlow
  rw [List.append_nil] at hwalk
  rw [hwalk]
  simp only [listWalk, List.append_nil]
  refine List.filter_congr fun x hx => ?_
  have hhi : decide (x.created_utc ≤ before) = true := by simp [(hwin x hx).2]
  rw [hhi, Bool.true_and]

/-- Under a nonzero minimum score and a nonempty allow-list, the code
filter agrees pointwise with the filter the spec describes. -/
theorem passes_eq_specKeep (ms : Option Int) (fl : Option (List String)) (r : DiscRecord)
    (hms : ∀ m, ms = some m → m ≠ 0) (hfl : ∀ fs, fl = some fs → fs ≠ []) :
    passes ms (mkFlairSet fl) r = specKeep ms fl r := by
  cases ms with
  | none =>
    cases fl with
    | none => simp [passes, scoreDrop, flairDrop, mkFlairSet, specKeep]
    | some fs =>
      have hfs := hfl fs rfl
      have hne : fs.isEmpty = false := by simp [List.isEmpty_iff, hfs]
      simp [passes, scoreDrop, specKeep, mkFlairSet, hne, not_flairDrop_eq fs hfs]
  | some m =>
    have hm := hms m rfl
    cases fl with
    | none => simp [passes, flairDrop, specKeep, mkFlairSet, not_scoreDrop_eq m hm]
    | some fs =>
      have hfs := hfl fs rfl
      have hne : fs.isEmpty = false := by simp [List.isEmpty_iff, hfs]
      simp [passes, specKeep, mkFlairSet, hne, not_scoreDrop_eq m hm,
        not_flairDrop_eq fs hfs]

/-- C5 (amended): in both discovery modes, a supplied NONZERO minimum
score drops exactly the records with score strictly below it, and a
supplied NONEMPTY flair allow-list drops exactly the records whose flair
(empty string when absent) is not a case-insensitive exact match to some
allowed value; candidates passing both are yielded. A supplied minimum
score of 0 and a supplied empty allow-list disable the respective filter
under Python truthiness. The spec examples hold: score 3 is excluded
under minimum 5, flair Discussion is excluded under allow-list News and
included under allow-list discussion. -/
theorem score_flair_filtering_amended (ms : Option Int) (fl : Option (List String))
    (feed : List DiscRecord)
    (hms : ∀ m, ms = some m → m ≠ 0) (hfl : ∀ fs, fl = some fs → fs ≠ []) :
    searchWalk ms (mkFlairSet fl) feed = feed.filter (specKeep ms fl)
    ∧ (∀ after before : Int,
        (∀ x ∈ feed, after ≤ x.created_utc ∧ x.created_utc ≤ before) →
        (listWalk after before ms (mkFlairSet fl) feed).1 = feed.filter (specKeep ms fl))
    ∧ searchWalk (some 5) (mkFlairSet none) [score3Rec] = []
    ∧ searchWalk none (mkFlairSet (some ["News"])) [discussionRec] = []
    ∧ searchWalk none (mkFlairSet (some ["discussion"])) [discussionRec] = [discussionRec] := by
  refine ⟨?_, ?_, by decide, by decide, by decide⟩
  · rw [searchWalk_eq_filter]
    exact List.filter_congr fun x _ => passes_eq_specKeep ms fl x hms hfl
  · intro after before hwin
    rw [listWalk_in_window after before ms (mkFlairSet fl) feed hwin]
    exact List.filter_congr fun x _ => passes_eq_specKeep ms fl x hms hfl

/-- Witness for C5 (amended) at concrete inputs: minimum score 5 and
allow-list News applied to the feed of the two example records keep
nothing in search mode, and the in-window range walk agrees. -/
theorem score_flair_filtering_amended_witness :
    searchWalk (some 5) (mkFlairSet (some ["News"])) [score3Rec, discussionRec]
      = [score3Rec, discussionRec].filter (specKeep (some 5) (some ["News"]))
    ∧ (∀ after before : Int,
        (∀ x ∈ [score3Rec, discussionRec],
          after ≤ x.created_utc ∧ x.created_utc ≤ before) →
        (listWalk after before (some 5) (mkFlairSet (some ["News"]))
            [score3Rec, discussionRec]).1
          = [score3Rec, discussionRec].filter (specKeep (some 5) (some ["News"])))
    ∧ searchWalk (some 5) (mkFlairSet none) [score3Rec] = []
    ∧ searchWalk none (mkFlairSet (some ["News"])) [discussionRec] = []
    ∧ searchWalk none (mkFlairSet (some ["discussion"])) [discussionRec] = [discussionRec] :=
  score_flair_filtering_amended (some 5) (some ["News"]) [score3Rec, discussionRec]
    (by decide) (by simp)

/-- C7: when a nonempty keyword list is supplied, Scraper.run selects
search mode, issuing a single disjunctive OR query over all supplied
keywords with newest-first ordering inside the coarse relative time
bucket year; the search applies the same score and flair predicate as
range mode, and neither the selected plan nor the search results depend
on the requested start and end dates in any way. -/
theorem keyword_mode_discovery (subreddit : String) (d1 d2 d1x d2x : Date)
    (ms : Option Int) (fl : Option (List String)) (ks : List String) (hks : ks ≠ [])
    (tf : String) (feed : List DiscRecord) :
    scraperPlan subreddit d1 d2 ms fl (some ks)
      = DiscoveryPlan.searchMode subreddit ⟨buildQuery ks, "new", "year"⟩ ms fl
    ∧ scraperPlan subreddit d1 d2 ms fl (some ks)
      = scraperPlan subreddit d1x d2x ms fl (some ks)
    ∧ buildQuery ks = String.intercalate " OR " (ks.map fun k => "\"" ++ k ++ "\"")
    ∧ buildQuery ["cats", "dogs"] = "\"cats\" OR \"dogs\""
    ∧ (search_submissions ks tf ms fl feed).1 = ⟨buildQuery ks, "new", tf⟩
    ∧ (search_submissions ks tf ms fl feed).2 = feed.filter (passes ms (mkFlairSet fl))
    ∧ (∀ after before : Int,
        (∀ x ∈ feed, after ≤ x.created_utc ∧ x.created_utc ≤ before) →
        (listWalk after before ms (mkFlairSet fl) feed).1
          = feed.filter (passes ms (mkFlairSet fl))) := by
  have hne : ks.isEmpty = false := by simp [List.isEmpty_iff, hks]
  refine ⟨by simp [scraperPlan, hne], by simp [scraperPlan, hne], rfl, by decide, rfl,
    ?_, fun after before hwin => listWalk_in_window after before ms (mkFlairSet fl) feed hwin⟩
  exact searchWalk_eq_filter ms (mkFlairSet fl) feed

/-- Witness for C7 at concrete inputs: keywords cats and dogs, any two
distinct date pairs, an empty filter configuration and a one-record feed. -/
theorem keyword_mode_discovery_witness :
    scraperPlan "ideas" ⟨2023, 1, 1⟩ ⟨2023, 12, 31⟩ none none (some ["cats", "dogs"])
      = DiscoveryPlan.searchMode "ideas" ⟨buildQuery ["cats", "dogs"], "new", "year"⟩ none none
    ∧ scraperPlan "ideas" ⟨2023, 1, 1⟩ ⟨2023, 12, 31⟩ none none (some ["cats", "dogs"])
      = scraperPlan "ideas" ⟨1999, 5, 5⟩ ⟨2000, 6, 6⟩ none none (some ["cats", "dogs"])
    ∧ buildQuery ["cats", "dogs"]
      = String.intercalate " OR " (["cats", "dogs"].map fun k => "\"" ++ k ++ "\"")
    ∧ buildQuery ["cats", "dogs"] = "\"cats\" OR \"dogs\""
    ∧ (search_submissions ["cats", "dogs"] "year" none none [score3Rec]).1
      = ⟨buildQuery ["cats", "dogs"], "new", "year"⟩
    ∧ (search_submissions ["cats", "dogs"] "year" none none [score3Rec]).2
      = [score3Rec].filter (passes none (mkFlairSet none))
    ∧ (∀ after before : Int,
        (∀ x ∈ [score3Rec], after ≤ x.created_utc ∧ x.created_utc ≤ before) →
        (listWalk after before none (mkFlairSet none) [score3Rec]).1
          = [score3Rec].filter (passes none (mkFlairSet none))) :=
  keyword_mode_discovery "ideas" ⟨2023, 1, 1⟩ ⟨2023, 12, 31⟩ ⟨1999, 5, 5⟩ ⟨2000, 6, 6⟩
    none none ["cats", "dogs"] (by decide) "year" [score3Rec]

/-- The character replacement done by cli._slug: every dash becomes an
underscore. -/
def slugChar (c : Char) : Char := if c = '-' then '_' else c

/-- Embeds cli._slug (cli.py lines 26-27): date.replace applied to every
character of the string. -/
def slug (s : String) : String := ⟨s.data.map slugChar⟩

/-- Embeds the scrape tag construction of cli.build_paths (cli.py line
31): the tag is built from the subreddit and the slugged start and end
dates only. -/
def build_tag (sub startDate endDate : String) : String :=
  sub ++ "_" ++ slug startDate ++ "__" ++ slug endDate

/-- The output paths of one run, as built by cli.build_paths (cli.py
lines 30-41), written relative to the repository root. -/
structure Paths where
  tag : String
  ndjson : String
  progress : String
  csv_sub : String
  csv_com : String
  txt_dir : String
  merged : String
deriving DecidableEq

/-- Embeds cli.build_paths (cli.py lines 30-41): every path incorporates
the tag; the function receives only the subreddit and the two dates. -/
def build_paths (sub startDate endDate : String) : Paths :=
  { tag := build_tag sub startDate endDate
    ndjson := "outputs/data/output_" ++ build_tag sub startDate endDate ++ ".ndjson"
    progress := "outputs/progress/progress_" ++ build_tag sub startDate endDate ++ ".sqlite"
    csv_sub := "outputs/csv/output_" ++ build_tag sub startDate endDate ++ "_submissions.csv"
    csv_com := "outputs/csv/output_" ++ build_tag sub startDate endDate ++ "_comments.csv"
    txt_dir := "outputs/txt/conversations_" ++ build_tag sub startDate endDate
    merged := "outputs/txt/all_conversations_" ++ build_tag sub startDate endDate ++ ".txt" }

/-- Embeds the path selection of cli.main (cli.py lines 79-94): paths are
computed by build_paths from the subreddit and the two dates alone; the
keyword list is passed on to the Scraper but takes no part in any path. -/
def mainPaths (sub startDate endDate : String) (_keywords : Option (List String)) : Paths :=
  build_paths sub startDate endDate

/-- C6 counterexample: two runs that differ only in the keyword query —
one searching for cats, one for dogs — use the same checkpoint store
path and the same output path, because cli.main never lets the keywords
reach build_paths; so the claim that any two runs whose keyword query
differs use distinct checkpoint stores fails. -/
theorem checkpoint_scoping_counterexample :
    (some ["cats"] : Option (List String)) ≠ some ["dogs"]
    ∧ (mainPaths "ideas" "2023-01-01" "2023-12-31" (some ["cats"])).progress
      = (mainPaths "ideas" "2023-01-01" "2023-12-31" (some ["dogs"])).progress
    ∧ (mainPaths "ideas" "2023-01-01" "2023-12-31" (some ["cats"])).ndjson
      = (mainPaths "ideas" "2023-01-01" "2023-12-31" (some ["dogs"])).ndjson :=
  ⟨by decide, rfl, rfl⟩

/-- A date string in bare ISO shape: ten characters and no underscore. -/
def isoDateShape (s : String) : Prop := s.data.length = 10 ∧ '_' ∉ s.data

instance (s : String) : Decidable (isoDateShape s) := by
  unfold isoDateShape
  infer_instance

/-- The slug character map is injective away from the underscore. -/
theorem slugChar_inj (c d : Char) (hc : c ≠ '_') (hd : d ≠ '_')
    (h : slugChar c = slugChar d) : c = d := by
  unfold slugChar at h
  by_cases h1 : c = '-'
  · by_cases h2 : d = '-'
    · rw [h1, h2]
    · rw [if_pos h1, if_neg h2] at h
      exact absurd h.symm hd
  · by_cases h2 : d = '-'
    · rw [if_neg h1, if_pos h2] at h
      exact absurd h hc
    · rwa [if_neg h1, if_neg h2] at h

/-- Slugging is injective on underscore-free character lists. -/
theorem slugMap_inj (a : List Char) : ∀ b : List Char, '_' ∉ a → '_' ∉ b →
    a.map slugChar = b.map slugChar → a = b := by
  induction a with
  | nil =>
    intro b _ _ h
    cases b with
    | nil => rfl
    | cons y ys => simp at h
  | cons x xs ih =>
    intro b ha hb h
    cases b with
    | nil => simp at h
    | cons y ys =>
      simp only [List.map_cons, List.cons.injEq] at h
      have hx : x ≠ '_' := by intro hx; subst hx; exact ha (List.mem_cons_self _ _)
      have hy : y ≠ '_' := by intro hy; subst hy; exact hb (List.mem_cons_self _ _)
      have hxs : '_' ∉ xs := fun hm => ha (List.mem_cons_of_mem _ hm)
      have hys : '_' ∉ ys := fun hm => hb (List.mem_cons_of_mem _ hm)
      exact congrArg₂ List.cons (slugChar_inj x y hx hy h.1) (ih ys hxs hys h.2)

/-- Splitting a tag-shaped character list: since the two date segments
have fixed length ten, the decomposition into subreddit, start and end
segments is unique. -/
theorem tag_data_inj (su a b su' a' b' : List Char)
    (ha : a.length = 10) (hb : b.length = 10) (ha' : a'.length = 10) (hb' : b'.length = 10)
    (h : su ++ '_' :: (a ++ '_' :: '_' :: b) = su' ++ '_' :: (a' ++ '_' :: '_' :: b')) :
    su = su' ∧ a = a' ∧ b = b' := by
  have hlen : ('_' :: (a ++ '_' :: '_' :: b)).length
      = ('_' :: (a' ++ '_' :: '_' :: b')).length := by
    simp [ha, hb, ha', hb']
  obtain ⟨hsu, hrest⟩ := List.append_inj' h hlen
  injection hrest with _ hrest2
  obtain ⟨haa, hbb⟩ := List.append_inj hrest2 (ha.trans ha'.symm)
  injection hbb with _ h2
  injection h2 with _ h3
  exact ⟨hsu, haa, h3⟩

/-- The data of a built tag in split form. -/
theorem build_tag_data (sub s e : String) :
    (build_tag sub s e).data
      = sub.data ++ '_' :: (s.data.map slugChar ++ '_' :: '_' :: e.data.map slugChar) := by
  simp [build_tag, slug]

/-- Tags built from ISO-shaped dates determine the subreddit and both
dates. -/
theorem build_tag_inj (sub s e sub' s' e' : String)
    (hs : isoDateShape s) (he : isoDateShape e) (hs' : isoDateShape s') (he' : isoDateShape e')
    (h : build_tag sub s e = build_tag sub' s' e') : sub = sub' ∧ s = s' ∧ e = e' := by
  have hd := congrArg String.data h
  rw [build_tag_data, build_tag_data] at hd
  have hl1 : (s.data.map slugChar).length = 10 := by rw [List.length_map]; exact hs.1
  have hl2 : (e.data.map slugChar).length = 10 := by rw [List.length_map]; exact he.1
  have hl3 : (s'.data.map slugChar).length = 10 := by rw [List.length_map]; exact hs'.1
  have hl4 : (e'.data.map slugChar).length = 10 := by rw [List.length_map]; exact he'.1
  obtain ⟨h1, h2, h3⟩ := tag_data_inj _ _ _ _ _ _ hl1 hl2 hl3 hl4 hd
  exact ⟨String.ext h1,
    String.ext (slugMap_inj s.data s'.data hs.2 hs'.2 h2),
    String.ext (slugMap_inj e.data e'.data he.2 he'.2 h3)⟩

/-- Equal progress paths force equal tags. -/
theorem progress_path_tag_eq (sub s e sub' s' e' : String)
    (h : (build_paths sub s e).progress = (build_paths sub' s' e').progress) :
    build_tag sub s e = build_tag sub' s' e' := by
  have hd := congrArg String.data h
  simp only [build_paths, String.data_append, List.append_assoc] at hd
  exact String.ext (List.append_cancel_right (List.append_cancel_left hd))

/-- Equal ndjson output paths force equal tags. -/
theorem ndjson_path_tag_eq (sub s e sub' s' e' : String)
    (h : (build_paths sub s e).ndjson = (build_paths sub' s' e').ndjson) :
    build_tag sub s e = build_tag sub' s' e' := by
  have hd := congrArg String.data h
  simp only [build_paths, String.data_append, List.append_assoc] at hd
  exact String.ext (List.append_cancel_right (List.append_cancel_left hd))

/-- C6 (amended): the checkpoint store path and the output path each
incorporate the scrape tag, which is built from the subreddit and the
slugged start and end dates; two runs that differ in subreddit, start
date or end date (dates in bare ISO YYYY-MM-DD shape) use distinct
checkpoint stores and distinct output paths, but the keyword query is
not part of the tag, so two runs differing only in keywords share one
checkpoint store. -/
theorem checkpoint_scoping_amended (sub s e sub' s' e' : String)
    (kw kw' : Option (List String))
    (hs : isoDateShape s) (he : isoDateShape e) (hs' : isoDateShape s') (he' : isoDateShape e')
    (hdiff : ¬ (sub = sub' ∧ s = s' ∧ e = e')) :
    (build_paths sub s e).progress
      = "outputs/progress/progress_" ++ build_tag sub s e ++ ".sqlite"
    ∧ (build_paths sub s e).ndjson
      = "outputs/data/output_" ++ build_tag sub s e ++ ".ndjson"
    ∧ (mainPaths sub s e kw).progress ≠ (mainPaths sub' s' e' kw').progress
    ∧ (mainPaths sub s e kw).ndjson ≠ (mainPaths sub' s' e' kw').ndjson
    ∧ (∀ k1 k2, mainPaths sub s e k1 = mainPaths sub s e k2) := by
  refine ⟨rfl, rfl, ?_, ?_, fun k1 k2 => rfl⟩
  · intro h
    exact hdiff (build_tag_inj sub s e sub' s' e' hs he hs' he'
      (progress_path_tag_eq sub s e sub' s' e' h))
  · intro h
    exact hdiff (build_tag_inj sub s e sub' s' e' hs he hs' he'
      (ndjson_path_tag_eq sub s e sub' s' e' h))

/-- Witness for C6 (amended) at concrete inputs: two runs over the same
subreddit whose start dates differ get distinct checkpoint store and
output paths, while the keyword argument never changes a path. -/
theorem checkpoint_scoping_amended_witness :
    (build_paths "ideas" "2023-01-01" "2023-12-31").progress
      = "outputs/progress/progress_" ++ build_tag "ideas" "2023-01-01" "2023-12-31" ++ ".sqlite"
    ∧ (build_paths "ideas" "2023-01-01" "2023-12-31").ndjson
      = "outputs/data/output_" ++ build_tag "ideas" "2023-01-01" "2023-12-31" ++ ".ndjson"
    ∧ (mainPaths "ideas" "2023-01-01" "2023-12-31" (some ["cats"])).progress
      ≠ (mainPaths "ideas" "2023-06-01" "2023-12-31" none).progress
    ∧ (mainPaths "ideas" "2023-01-01" "2023-12-31" (some ["cats"])).ndjson
      ≠ (mainPaths "ideas" "2023-06-01" "2023-12-31" none).ndjson
    ∧ (∀ k1 k2, mainPaths "ideas" "2023-01-01" "2023-12-31" k1
        = mainPaths "ideas" "2023-01-01" "2023-12-31" k2) :=
  checkpoint_scoping_amended "ideas" "2023-01-01" "2023-12-31" "ideas" "2023-06-01" "2023-12-31"
    (some ["cats"]) none (by decide) (by decide) (by decide) (by decide) (by decide)

/-- Comment node as extracted by RedditClient._extract_comment
(reddit.py lines 134-147): identifier, parent and link identifiers,
optional author, body, creation timestamp, score, depth and the ordered
replies. -/
structure CommentNode where
  id : String
  parent_id : String
  link_id : String
  author : Option String
  body : String
  created_utc : Int
  score : Int
  depth : Nat
  replies : List CommentNode

instance : Inhabited CommentNode := ⟨⟨"", "", "", none, "", 0, 0, 0, []⟩⟩

/-- Submission fields as extracted by RedditClient._extract_submission
(reddit.py lines 119-132). -/
structure SubmissionData where
  id : String
  title : String
  selftext : String
  created_utc : Int
  author : Option String
  score : Int
  num_comments : Int
  link_flair_text : Option String
  url : String
  permalink : String

instance : Inhabited SubmissionData := ⟨⟨"", "", "", 0, none, 0, 0, none, "", ""⟩⟩

/-- The dict returned by RedditClient.fetch_submission_tree on success
(reddit.py lines 97-100): the extracted submission plus the extracted
top-level comments. -/
structure RawTree where
  submission : SubmissionData
  comments : List CommentNode

instance : Inhabited RawTree := ⟨⟨default, []⟩⟩

/-- Exception classes that can be raised inside the retry loop of
RedditClient.fetch_submission_tree, modelled from the praw and prawcore
exception hierarchy (an external dependency of reddit.py): APIException
and RedditAPIException from praw; RequestException (transport-level
error), ServerError (5xx), TooManyRequests (429 rate limiting),
BadRequest (400 malformed request), InvalidToken (401 authentication
failure), Forbidden (403) and NotFound (404 deleted or inaccessible
resource) from prawcore — the last six all subclasses of the prawcore
ResponseException class; and any exception outside these classes. -/
inductive PrawError where
  | apiException
  | redditAPIException
  | requestException
  | serverError
  | tooManyRequests
  | badRequest
  | invalidToken
  | forbidden
  | notFound
  | other (name : String)
deriving DecidableEq

/-- Embeds the class test of the except clause in reddit.py lines
101-107: an exception is caught iff it is an instance of APIException,
RedditAPIException, RequestException, ResponseException or ServerError.
Because ServerError, TooManyRequests, BadRequest, InvalidToken,
Forbidden and NotFound are all subclasses of ResponseException in
prawcore, every one of them is caught; only an exception outside the
praw and prawcore classes above falls through the clause. -/
def caughtByTuple : PrawError → Bool
  | PrawError.other _ => false
  | _ => true

/-- Outcome of one fetch attempt inside the retry loop of
RedditClient.fetch_submission_tree (reddit.py lines 92-109): the
attempt either succeeds with a tree or raises one of the modelled
exception classes. -/
inductive FetchOutcome where
  | ok (t : RawTree)
  | exn (e : PrawError)

/-- The fixed backoff interval in seconds, RedditClient.ratelimit_sleep
(reddit.py lines 19-25, default 2). -/
def ratelimit_sleep : Nat := 2

/-- Embeds RedditClient.fetch_submission_tree (reddit.py lines 92-109)
over the sequence of attempt outcomes the upstream would produce: the
while-True loop returns the first success; an exception caught by the
except tuple causes one fixed-interval sleep and another attempt; an
exception not caught by the tuple propagates at once; if the outcome
sequence offers no deciding attempt the loop never returns (None here).
The result carries the number of sleeps taken. -/
def fetch_submission_tree : List FetchOutcome → Option (Except PrawError RawTree × Nat)
  | [] => none
  | FetchOutcome.ok t :: _ => some (Except.ok t, 0)
  | FetchOutcome.exn e :: rest =>
    if caughtByTuple e then
      match fetch_submission_tree rest with
      | none => none
      | some (r, n) => some (r, n + 1)
    else
      some (Except.error e, 0)

/-- True when the fetch returns successfully on the given attempt
sequence. -/
def isOkFetch : Option (Except PrawError RawTree × Nat) → Bool
  | some (Except.ok _, _) => true
  | _ => false

/-- The tree a fetch returns on the given attempt sequence (default when
it does not succeed). -/
def fetchedTree (oracle : String → List FetchOutcome) (sid : String) : RawTree :=
  match fetch_submission_tree (oracle sid) with
  | some (Except.ok t, _) => t
  | _ => default

/-- Observable side effects of the main loop of Scraper.run
(scraper.py lines 73-94): the blocking fetch of one candidate, the
ndjson append, the checkpoint mark, the progress-bar increment, and the
two closes of the finally block. -/
inductive Event where
  | fetch (sid : String)
  | append (sid : String)
  | markDone (sid : String)
  | incr
  | closeBar
  | closeStore
deriving DecidableEq, BEq

/-- State threaded through the loop of Scraper.run: the completed-id set
of the checkpoint store (modelled from the spec contract of
services/progress.py, which is not under src: a durable set with is_done
as membership and mark_done as insertion), the records appended to the
output sink so far, and the tqdm counter bar.n. -/
structure RunState where
  done : List String
  output : List RawTree
  count : Nat

/-- Embeds the for-loop of Scraper.run (scraper.py lines 75-88): skip a
candidate the checkpoint store reports done, otherwise fetch its full
tree (blocking), append the record, mark the id done, and increment the
counter; a fatal fetch error aborts the loop; a never-returning fetch
leaves the loop blocked (None). Returns the emitted event trace and the
loop result. -/
def runLoop (oracle : String → List FetchOutcome) :
    List String → RunState → List Event × Option (Except PrawError RunState)
  | [], s => ([], some (Except.ok s))
  | sid :: rest, s =>
    if sid ∈ s.done then
      runLoop oracle rest s
    else
      match fetch_submission_tree (oracle sid) with
      | none => ([Event.fetch sid], none)
      | some (Except.error e, _) => ([Event.fetch sid], some (Except.error e))
      | some (Except.ok t, _) =>
        let next := runLoop oracle rest ⟨s.done ++ [sid], s.output ++ [t], s.count + 1⟩
        (Event.fetch sid :: Event.append sid :: Event.markDone sid :: Event.incr :: next.1,
         next.2)

/-- Embeds Scraper.run (scraper.py lines 48-94): the loop over the
discovery sequence starting from the pre-populated checkpoint set, with
the finally block closing the bar and the checkpoint store whenever the
loop exits, normally or by raising; the successful result carries bar.n
as the saved count inside the final state. -/
def runScraper (oracle : String → List FetchOutcome) (items done : List String) :
    List Event × Option (Except PrawError RunState) :=
  match runLoop oracle items ⟨done, [], 0⟩ with
  | (tr, none) => (tr, none)
  | (tr, some r) => (tr ++ [Event.closeBar, Event.closeStore], some r)

/-- The candidate ids a run starting from the given checkpoint set will
newly persist, in discovery order: ids already done are skipped, each
new id is persisted once and immediately counts as done. -/
def newlySaved (done : List String) : List String → List String
  | [] => []
  | sid :: rest =>
    if sid ∈ done then newlySaved done rest
    else sid :: newlySaved (done ++ [sid]) rest

/-- The four side-effect events of persisting one candidate, in program
order: fetch, append to the sink, mark done, increment the counter. -/
def saveBlock (sid : String) : List Event :=
  [Event.fetch sid, Event.append sid, Event.markDone sid, Event.incr]

/-- The state of the loop after processing a list of candidates that all
fetch successfully. -/
def advance (oracle : String → List FetchOutcome) (s : RunState) (items : List String) :
    RunState :=
  ⟨s.done ++ newlySaved s.done items,
   s.output ++ (newlySaved s.done items).map (fetchedTree oracle),
   s.count + (newlySaved s.done items).length⟩

/-- The ids appended to the output sink, in trace order. -/
def appendedIds (trace : List Event) : List String :=
  trace.filterMap fun e =>
    match e with
    | Event.append sid => some sid
    | _ => none

/-- The ids marked done in the checkpoint store, in trace order. -/
def markedIds (trace : List Event) : List String :=
  trace.filterMap fun e =>
    match e with
    | Event.markDone sid => some sid
    | _ => none

/-- The export steps cli.main runs after the scrape (cli.py lines
96-127): none when the saved count is zero, otherwise those the flags
request. -/
inductive ExportStep where
  | csv
  | txt
  | mergedTxt
deriving DecidableEq

/-- Embeds the post-run logic of cli.main (cli.py lines 96-127): a saved
count of zero returns early and skips every export; otherwise CSV export
runs when the csv flag is set, TXT export when the txt or merged flag is
set, and the merge when the merged flag is set. -/
def exportSteps (savedCount : Nat) (csvFlag txtFlag mergedFlag : Bool) : List ExportStep :=
  if savedCount = 0 then []
  else
    (if csvFlag then [ExportStep.csv] else [])
      ++ (if txtFlag || mergedFlag then [ExportStep.txt] else [])
      ++ (if mergedFlag then [ExportStep.mergedTxt] else [])

/-- Successful fetches report the tree they return. -/
theorem isOkFetch_elim (x : Option (Except PrawError RawTree × Nat))
    (h : isOkFetch x = true) : ∃ t n, x = some (Except.ok t, n) := by
  match x with
  | none => simp [isOkFetch] at h
  | some (Except.error e, n) => simp [isOkFetch] at h
  | some (Except.ok t, n) => exact ⟨t, n, rfl⟩

/-- Advancing over a candidate the store reports done changes nothing. -/
theorem advance_skip (oracle : String → List FetchOutcome) (s : RunState) (sid : String)
    (rest : List String) (hmem : sid ∈ s.done) :
    advance oracle s (sid :: rest) = advance oracle s rest := by
  simp [advance, newlySaved, hmem]

/-- Advancing over a fresh candidate whose fetch succeeds equals one
persist step followed by advancing over the rest. -/
theorem advance_step (oracle : String → List FetchOutcome) (s : RunState) (sid : String)
    (rest : List String) (t : RawTree) (n : Nat) (hmem : sid ∉ s.done)
    (hfetch : fetch_submission_tree (oracle sid) = some (Except.ok t, n)) :
    advance oracle s (sid :: rest)
      = advance oracle ⟨s.done ++ [sid], s.output ++ [t], s.count + 1⟩ rest := by
  simp [advance, newlySaved, hmem, fetchedTree, hfetch, List.append_assoc]
  omega

/-- Main loop decomposition: a run over a candidate segment whose fresh
ids all fetch successfully emits one save block per fresh id, in order,
then continues on the remaining candidates from the advanced state. -/
theorem runLoop_ok_append (oracle : String → List FetchOutcome) (pre : List String)
    (bs : List String) (s : RunState)
    (h : ∀ sid ∈ newlySaved s.done pre, isOkFetch (fetch_submission_tree (oracle sid)) = true) :
    runLoop oracle (pre ++ bs) s
      = ((newlySaved s.done pre).flatMap saveBlock
           ++ (runLoop oracle bs (advance oracle s pre)).1,
         (runLoop oracle bs (advance oracle s pre)).2) := by
  induction pre generalizing s with
  | nil => simp [newlySaved, advance]
  | cons sid rest ih =>
    by_cases hmem : sid ∈ s.done
    · have hnew : newlySaved s.done (sid :: rest) = newlySaved s.done rest := by
        simp [newlySaved, hmem]
      have hstep : runLoop oracle ((sid :: rest) ++ bs) s = runLoop oracle (rest ++ bs) s := by
        simp [runLoop, hmem]
      rw [hstep, hnew, advance_skip oracle s sid rest hmem]
      exact ih s (by rw [← hnew]; exact h)
    · have hhead : sid ∈ newlySaved s.done (sid :: rest) := by
        simp [newlySaved, hmem]
      obtain ⟨t, n, hfetch⟩ := isOkFetch_elim _ (h sid hhead)
      have hnew : newlySaved s.done (sid :: rest)
          = sid :: newlySaved (s.done ++ [sid]) rest := by
        simp [newlySaved, hmem]
      have htail : ∀ x ∈ newlySaved (s.done ++ [sid]) rest,
          isOkFetch (fetch_submission_tree (oracle x)) = true := by
        intro x hx
        exact h x (by rw [hnew]; exact List.mem_cons_of_mem _ hx)
      have hstep : runLoop oracle ((sid :: rest) ++ bs) s
          = (Event.fetch sid :: Event.append sid :: Event.markDone sid :: Event.incr ::
               (runLoop oracle (rest ++ bs) ⟨s.done ++ [sid], s.output ++ [t], s.count + 1⟩).1,
             (runLoop oracle (rest ++ bs) ⟨s.done ++ [sid], s.output ++ [t], s.count + 1⟩).2) := by
        simp [runLoop, hmem, hfetch]
      rw [hstep, ih ⟨s.done ++ [sid], s.output ++ [t], s.count + 1⟩ htail, hnew,
        advance_step oracle s sid rest t n hmem hfetch]
      simp [saveBlock, List.append_assoc]

/-- A run over candidates whose fresh ids all fetch successfully ends
normally in the advanced state, having emitted exactly the save blocks. -/
theorem runLoop_ok (oracle : String → List FetchOutcome) (items : List String) (s : RunState)
    (h : ∀ sid ∈ newlySaved s.done items,
        isOkFetch (fetch_submission_tree (oracle sid)) = true) :
    runLoop oracle items s
      = ((newlySaved s.done items).flatMap saveBlock,
         some (Except.ok (advance oracle s items))) := by
  have hx := runLoop_ok_append oracle items [] s h
  rw [List.append_nil] at hx
  simpa [runLoop] using hx

/-- Scraper.run on an all-successful discovery sequence: the trace is the
save blocks of the fresh ids followed by the closes of the finally
block, and the result is the advanced state. -/
theorem runScraper_ok (oracle : String → List FetchOutcome) (items done : List String)
    (h : ∀ sid ∈ newlySaved done items,
        isOkFetch (fetch_submission_tree (oracle sid)) = true) :
    runScraper oracle items done
      = ((newlySaved done items).flatMap saveBlock ++ [Event.closeBar, Event.closeStore],
         some (Except.ok (advance oracle ⟨done, [], 0⟩ items))) := by
  unfold runScraper
  rw [runLoop_ok oracle items ⟨done, [], 0⟩ h]

/-- An id the checkpoint store already reports done is never among the
newly saved ids. -/
theorem not_mem_newlySaved (done items : List String) (sid : String) (hd : sid ∈ done) :
    sid ∉ newlySaved done items := by
  induction items generalizing done with
  | nil => simp [newlySaved]
  | cons x rest ih =>
    by_cases hx : x ∈ done
    · simpa [newlySaved, hx] using ih done hd
    · have hne : sid ≠ x := fun heq => hx (heq ▸ hd)
      simp only [newlySaved, hx, if_false, List.mem_cons]
      push_neg
      exact ⟨hne, ih (done ++ [x]) (List.mem_append_left _ hd)⟩

/-- A fresh id occurring in the discovery sequence is saved exactly
once, however often it is discovered. -/
theorem newlySaved_count_one (items done : List String) (sid : String)
    (hs : sid ∈ items) (hd : sid ∉ done) :
    (newlySaved done items).count sid = 1 := by
  induction items generalizing done with
  | nil => cases hs
  | cons x rest ih =>
    by_cases hx : x ∈ done
    · have hne : sid ≠ x := fun heq => hd (heq ▸ hx)
      have hs' : sid ∈ rest := by
        rcases List.mem_cons.mp hs with heq | hm
        · exact absurd heq hne
        · exact hm
      simpa [newlySaved, hx] using ih done hs' hd
    · by_cases heq : sid = x
      · subst heq
        rw [newlySaved, if_neg hx, List.count_cons_self]
        have hz : sid ∉ newlySaved (done ++ [sid]) rest :=
          not_mem_newlySaved _ _ _ (List.mem_append_right _ (List.mem_singleton.mpr rfl))
        rw [List.count_eq_zero.mpr hz]
      · have hs' : sid ∈ rest := by
          rcases List.mem_cons.mp hs with h1 | hm
          · exact absurd h1 heq
          · exact hm
        have hd' : sid ∉ done ++ [x] := by
          intro hmm
          rcases List.mem_append.mp hmm with h1 | h2
          · exact hd h1
          · exact heq (List.mem_singleton.mp h2)
        rw [newlySaved, if_neg hx, List.count_cons_of_ne heq]
        exact ih (done ++ [x]) hs' hd'

/-- The appended ids of a block trace are the saved ids, in order. -/
theorem appendedIds_blocks (l : List String) :
    appendedIds (l.flatMap saveBlock ++ [Event.closeBar, Event.closeStore]) = l := by
  induction l with
  | nil => rfl
  | cons x rest ih =>
    simpa [appendedIds, saveBlock, List.filterMap_append] using ih

/-- The marked ids of a block trace are the saved ids, in order. -/
theorem markedIds_blocks (l : List String) :
    markedIds (l.flatMap saveBlock ++ [Event.closeBar, Event.closeStore]) = l := by
  induction l with
  | nil => rfl
  | cons x rest ih =>
    simpa [markedIds, saveBlock, List.filterMap_append] using ih

/-- After any finite number of caught failures, a successful attempt
returns its tree, with one fixed-interval sleep per failed attempt. -/
theorem fetch_retries_then_ok (n : Nat) (t : RawTree) (rest : List FetchOutcome)
    (e : PrawError) (he : caughtByTuple e = true) :
    fetch_submission_tree
        (List.replicate n (FetchOutcome.exn e) ++ FetchOutcome.ok t :: rest)
      = some (Except.ok t, n) := by
  induction n with
  | zero => rfl
  | succ k ih => simp [List.replicate_succ, fetch_submission_tree, he, ih]

/-- Caught failures alone never produce a result: the loop keeps
retrying and no such error ever reaches the caller. -/
theorem fetch_all_caught_none (n : Nat) (e : PrawError) (he : caughtByTuple e = true) :
    fetch_submission_tree (List.replicate n (FetchOutcome.exn e)) = none := by
  induction n with
  | zero => rfl
  | succ k ih => simp [List.replicate_succ, fetch_submission_tree, he, ih]

/-- An exception the tuple does not catch propagates the moment it is
raised, whatever attempts would have followed. -/
theorem fetch_uncaught_propagates (e : PrawError) (rest : List FetchOutcome)
    (he : caughtByTuple e = false) :
    fetch_submission_tree (FetchOutcome.exn e :: rest) = some (Except.error e, 0) := by
  simp [fetch_submission_tree, he]

/-- Demo tree for a given submission id. -/
def demoTree (sid : String) : RawTree := ⟨⟨sid, "", "", 0, none, 0, 0, none, "", ""⟩, []⟩

/-- Demo oracle on which every fetch succeeds at the first attempt. -/
def demoOracle (sid : String) : List FetchOutcome := [FetchOutcome.ok (demoTree sid)]

/-- C1: for every discovery sequence, the run skips every candidate id
the checkpoint store already reports done without any side effect (no
fetch, append or checkpoint event names such an id), persists exactly
the remaining ids and returns their number as the saved count; in the
concrete scenario with a and b done and discovery a, b, c, d the run
persists exactly c and d and returns 2; and a saved count of zero makes
cli.main skip every downstream export step. -/
theorem resume_correctness (oracle : String → List FetchOutcome) (items done : List String)
    (h : ∀ sid ∈ newlySaved done items,
        isOkFetch (fetch_submission_tree (oracle sid)) = true) :
    runScraper oracle items done
      = ((newlySaved done items).flatMap saveBlock ++ [Event.closeBar, Event.closeStore],
         some (Except.ok ⟨done ++ newlySaved done items,
                          (newlySaved done items).map (fetchedTree oracle),
                          (newlySaved done items).length⟩))
    ∧ (∀ sid ∈ done, ∀ e ∈ (runScraper oracle items done).1,
        e ≠ Event.fetch sid ∧ e ≠ Event.append sid ∧ e ≠ Event.markDone sid)
    ∧ runScraper demoOracle ["a", "b", "c", "d"] ["a", "b"]
      = ([Event.fetch "c", Event.append "c", Event.markDone "c", Event.incr,
          Event.fetch "d", Event.append "d", Event.markDone "d", Event.incr,
          Event.closeBar, Event.closeStore],
         some (Except.ok ⟨["a", "b", "c", "d"], [demoTree "c", demoTree "d"], 2⟩))
    ∧ (∀ c t m, exportSteps 0 c t m = []) := by
  refine ⟨?_, ?_, rfl, fun c t m => rfl⟩
  · rw [runScraper_ok oracle items done h]
    simp [advance]
  · intro sid hsid e he
    rw [runScraper_ok oracle items done h] at he
    rcases List.mem_append.mp he with hbl | hcl
    · obtain ⟨x, hx, hex⟩ := List.mem_flatMap.mp hbl
      have hne : x ≠ sid := fun heq =>
        not_mem_newlySaved done items sid hsid (heq ▸ hx)
      simp only [saveBlock, List.mem_cons, List.not_mem_nil, or_false] at hex
      rcases hex with rfl | rfl | rfl | rfl <;> simp [hne]
    · simp only [List.mem_cons, List.not_mem_nil, or_false] at hcl
      rcases hcl with rfl | rfl <;> simp

/-- Witness for C1 at the concrete resume scenario of the spec. -/
theorem resume_correctness_witness :
    runScraper demoOracle ["a", "b", "c", "d"] ["a", "b"]
      = ((newlySaved ["a", "b"] ["a", "b", "c", "d"]).flatMap saveBlock
           ++ [Event.closeBar, Event.closeStore],
         some (Except.ok ⟨["a", "b"] ++ newlySaved ["a", "b"] ["a", "b", "c", "d"],
                          (newlySaved ["a", "b"] ["a", "b", "c", "d"]).map
                            (fetchedTree demoOracle),
                          (newlySaved ["a", "b"] ["a", "b", "c", "d"]).length⟩))
    ∧ (∀ sid ∈ ["a", "b"], ∀ e ∈ (runScraper demoOracle ["a", "b", "c", "d"] ["a", "b"]).1,
        e ≠ Event.fetch sid ∧ e ≠ Event.append sid ∧ e ≠ Event.markDone sid)
    ∧ runScraper demoOracle ["a", "b", "c", "d"] ["a", "b"]
      = ([Event.fetch "c", Event.append "c", Event.markDone "c", Event.incr,
          Event.fetch "d", Event.append "d", Event.markDone "d", Event.incr,
          Event.closeBar, Event.closeStore],
         some (Except.ok ⟨["a", "b", "c", "d"], [demoTree "c", demoTree "d"], 2⟩))
    ∧ (∀ c t m, exportSteps 0 c t m = []) :=
  resume_correctness demoOracle ["a", "b", "c", "d"] ["a", "b"] (by decide)

/-- C8: submissions are persisted in exactly the order their ids are
yielded by the discovery sequence, modulo skips of already-done ids,
with no reordering: the run trace is the concatenation of one save
block per fresh id in discovery order, the appended ids and the marked
ids both equal that order, and within each save block the append
strictly precedes the checkpoint mark, which strictly precedes the
counter increment. -/
theorem persistence_ordering (oracle : String → List FetchOutcome) (items done : List String)
    (h : ∀ sid ∈ newlySaved done items,
        isOkFetch (fetch_submission_tree (oracle sid)) = true) :
    (runScraper oracle items done).1
      = (newlySaved done items).flatMap saveBlock ++ [Event.closeBar, Event.closeStore]
    ∧ appendedIds (runScraper oracle items done).1 = newlySaved done items
    ∧ markedIds (runScraper oracle items done).1 = newlySaved done items
    ∧ (∀ sid, saveBlock sid
        = [Event.fetch sid, Event.append sid, Event.markDone sid, Event.incr]) := by
  rw [runScraper_ok oracle items done h]
  exact ⟨rfl, appendedIds_blocks _, markedIds_blocks _, fun sid => rfl⟩

/-- Witness for C8 at the concrete resume scenario. -/
theorem persistence_ordering_witness :
    (runScraper demoOracle ["a", "b", "c", "d"] ["a", "b"]).1
      = (newlySaved ["a", "b"] ["a", "b", "c", "d"]).flatMap saveBlock
          ++ [Event.closeBar, Event.closeStore]
    ∧ appendedIds (runScraper demoOracle ["a", "b", "c", "d"] ["a", "b"]).1
      = newlySaved ["a", "b"] ["a", "b", "c", "d"]
    ∧ markedIds (runScraper demoOracle ["a", "b", "c", "d"] ["a", "b"]).1
      = newlySaved ["a", "b"] ["a", "b", "c", "d"]
    ∧ (∀ sid, saveBlock sid
        = [Event.fetch sid, Event.append sid, Event.markDone sid, Event.incr]) :=
  persistence_ordering demoOracle ["a", "b", "c", "d"] ["a", "b"] (by decide)

/-- C2: the transient failure classes of the claim — rate limiting,
transport-level errors, server-side errors — all fall inside the caught
tuple, and a fetch that hits only caught failures sleeps and retries
and never returns, so no transient error reaches the caller; a fetch
that fails with caught errors any finite number of times and then
succeeds returns the successful tree after exactly that many
fixed-interval sleeps; and in a run whose fresh ids all eventually
fetch successfully, an id discovered at least once and not yet done is
appended exactly once and checkpointed exactly once. -/
theorem transient_retry (n : Nat) (t : RawTree) (rest : List FetchOutcome)
    (e : PrawError) (he : caughtByTuple e = true)
    (oracle : String → List FetchOutcome) (items done : List String) (sid : String)
    (h : ∀ x ∈ newlySaved done items,
        isOkFetch (fetch_submission_tree (oracle x)) = true)
    (hsid : sid ∈ items) (hnd : sid ∉ done) :
    caughtByTuple PrawError.tooManyRequests = true
    ∧ caughtByTuple PrawError.requestException = true
    ∧ caughtByTuple PrawError.serverError = true
    ∧ fetch_submission_tree
        (List.replicate n (FetchOutcome.exn e) ++ FetchOutcome.ok t :: rest)
      = some (Except.ok t, n)
    ∧ fetch_submission_tree (List.replicate n (FetchOutcome.exn e)) = none
    ∧ (appendedIds (runScraper oracle items done).1).count sid = 1
    ∧ (markedIds (runScraper oracle items done).1).count sid = 1 := by
  refine ⟨rfl, rfl, rfl, fetch_retries_then_ok n t rest e he,
    fetch_all_caught_none n e he, ?_, ?_⟩
  · rw [runScraper_ok oracle items done h, appendedIds_blocks]
    exact newlySaved_count_one items done sid hsid hnd
  · rw [runScraper_ok oracle items done h, markedIds_blocks]
    exact newlySaved_count_one items done sid hsid hnd

/-- Oracle whose candidate p4 fails twice with a server-side error and
then succeeds, while every other id succeeds at once. -/
def retryOracle (sid : String) : List FetchOutcome :=
  if sid = "p4" then
    [FetchOutcome.exn PrawError.serverError, FetchOutcome.exn PrawError.serverError,
     FetchOutcome.ok (demoTree "p4")]
  else
    [FetchOutcome.ok (demoTree sid)]

/-- Witness for C2: the spec scenario where the fetch for p4 fails twice
with a transient (server-side) error and then succeeds — exactly one
append and one checkpoint entry for p4. -/
theorem transient_retry_witness :
    caughtByTuple PrawError.tooManyRequests = true
    ∧ caughtByTuple PrawError.requestException = true
    ∧ caughtByTuple PrawError.serverError = true
    ∧ fetch_submission_tree
        (List.replicate 2 (FetchOutcome.exn PrawError.serverError)
           ++ FetchOutcome.ok (demoTree "p4") :: [])
      = some (Except.ok (demoTree "p4"), 2)
    ∧ fetch_submission_tree (List.replicate 2 (FetchOutcome.exn PrawError.serverError)) = none
    ∧ (appendedIds (runScraper retryOracle ["p3", "p4"] []).1).count "p4" = 1
    ∧ (markedIds (runScraper retryOracle ["p3", "p4"] []).1).count "p4" = 1 :=
  transient_retry 2 (demoTree "p4") [] PrawError.serverError rfl
    retryOracle ["p3", "p4"] [] "p4" (by decide) (by decide) (by decide)

/-- C4: the claim fails on the code. The except tuple of
fetch_submission_tree includes ResponseException, the prawcore base
class of NotFound (deleted or inaccessible resource), Forbidden,
BadRequest (malformed request) and InvalidToken (authentication
failure), so the failures the claim names as non-transient are caught:
the code sleeps and retries them indefinitely, exactly like transient
ones, and never propagates them — a run whose candidate keeps raising
NotFound blocks forever instead of terminating with the error. Only an
exception outside the caught classes propagates immediately. This
contradicts the retry-loop comment at reddit.py line 93, which declares
the loop a retry on rate-limit and transient errors only. -/
theorem nontransient_failures_retried :
    caughtByTuple PrawError.notFound = true
    ∧ caughtByTuple PrawError.forbidden = true
    ∧ caughtByTuple PrawError.badRequest = true
    ∧ caughtByTuple PrawError.invalidToken = true
    ∧ (∀ n, fetch_submission_tree
        (List.replicate n (FetchOutcome.exn PrawError.notFound)) = none)
    ∧ (∀ n t rest, fetch_submission_tree
        (List.replicate n (FetchOutcome.exn PrawError.notFound)
           ++ FetchOutcome.ok t :: rest)
        = some (Except.ok t, n))
    ∧ runScraper (fun _ => List.replicate 3 (FetchOutcome.exn PrawError.notFound))
        ["gone"] [] = ([Event.fetch "gone"], none)
    ∧ (∀ name rest, fetch_submission_tree
        (FetchOutcome.exn (PrawError.other name) :: rest)
        = some (Except.error (PrawError.other name), 0)) :=
  ⟨rfl, rfl, rfl, rfl,
   fun n => fetch_all_caught_none n PrawError.notFound rfl,
   fun n t rest => fetch_retries_then_ok n t rest PrawError.notFound rfl,
   rfl,
   fun name rest => fetch_uncaught_propagates (PrawError.other name) rest rfl⟩

/-- Oracle whose candidate bad raises an exception outside the caught
classes at the first attempt, while every other id succeeds at once. -/
def uncaughtOracle (sid : String) : List FetchOutcome :=
  if sid = "bad" then [FetchOutcome.exn (PrawError.other "ValueError")]
  else [FetchOutcome.ok (demoTree sid)]

/-- C10: the finally block of Scraper.run closes the progress bar and
the checkpoint store on every way out of the main loop — normal
exhaustion of the discovery sequence and propagation of a fatal error
alike — and the loop result, error included, is passed through
unchanged after the closes. -/
theorem cleanup_every_exit (oracle : String → List FetchOutcome) (items done : List String)
    (r : Except PrawError RunState)
    (h : (runLoop oracle items ⟨done, [], 0⟩).2 = some r) :
    runScraper oracle items done
      = ((runLoop oracle items ⟨done, [], 0⟩).1 ++ [Event.closeBar, Event.closeStore],
         some r) := by
  unfold runScraper
  rcases heq : runLoop oracle items ⟨done, [], 0⟩ with ⟨tr, r0⟩
  rw [heq] at h
  simp at h
  rw [h]

/-- Witness for C10 on a raising run: the uncaught exception of bad
still ends the trace with the two closes and propagates the error. -/
theorem cleanup_every_exit_witness :
    runScraper uncaughtOracle ["bad"] []
      = ((runLoop uncaughtOracle ["bad"] ⟨[], [], 0⟩).1
           ++ [Event.closeBar, Event.closeStore],
         some (Except.error (PrawError.other "ValueError"))) :=
  cleanup_every_exit uncaughtOracle ["bad"] []
    (Except.error (PrawError.other "ValueError")) rfl

/-- Actions a signal handler can take, as observable effects of the
handler body in Scraper._setup_signals (scraper.py lines 97-105). -/
inductive HandlerEvent where
  | logWarning (msg : String)
  | logError (msg : String)
  | closeStore
  | exitProcess (code : Nat)
deriving DecidableEq

/-- Embeds the handler closure of Scraper._setup_signals (scraper.py
lines 98-102): log a warning naming the signal, close the checkpoint
store, then sys.exit(0). -/
def signalHandler (sigName : String) : List HandlerEvent :=
  [HandlerEvent.logWarning ("Received " ++ sigName ++ " – shutting down gracefully…"),
   HandlerEvent.closeStore,
   HandlerEvent.exitProcess 0]

/-- Embeds the two signal.signal registrations of Scraper._setup_signals
(scraper.py lines 104-105). -/
def registeredSignals : List String := ["SIGINT", "SIGTERM"]

/-- C9: the coordinator registers handlers exactly for SIGINT and
SIGTERM; for each such signal the handler logs a warning-level notice
(never an error-level one), closes the checkpoint store, and terminates
the process with exit status zero. -/
theorem interrupt_handling :
    registeredSignals = ["SIGINT", "SIGTERM"]
    ∧ signalHandler "SIGINT"
      = [HandlerEvent.logWarning "Received SIGINT – shutting down gracefully…",
         HandlerEvent.closeStore, HandlerEvent.exitProcess 0]
    ∧ signalHandler "SIGTERM"
      = [HandlerEvent.logWarning "Received SIGTERM – shutting down gracefully…",
         HandlerEvent.closeStore, HandlerEvent.exitProcess 0]
    ∧ (∀ s msg, HandlerEvent.logError msg ∉ signalHandler s)
    ∧ (∀ s c, HandlerEvent.exitProcess c ∈ signalHandler s → c = 0)
    ∧ (∀ s, HandlerEvent.closeStore ∈ signalHandler s) := by
  refine ⟨rfl, rfl, rfl, ?_, ?_, ?_⟩
  · intro s msg hmem
    simp [signalHandler] at hmem
  · intro s c hmem
    simpa [signalHandler] using hmem
  · intro s
    simp [signalHandler]

/-- Witness for C9 at the two registered signals. -/
theorem interrupt_handling_witness :
    signalHandler "SIGINT"
      = [HandlerEvent.logWarning "Received SIGINT – shutting down gracefully…",
         HandlerEvent.closeStore, HandlerEvent.exitProcess 0]
    ∧ HandlerEvent.logError "fatal" ∉ signalHandler "SIGTERM"
    ∧ (0 : Nat) = 0
    ∧ HandlerEvent.closeStore ∈ signalHandler "SIGTERM" :=
  ⟨interrupt_handling.2.1,
   interrupt_handling.2.2.2.1 "SIGTERM" "fatal",
   interrupt_handling.2.2.2.2.1 "SIGTERM" 0 (by simp [signalHandler]),
   interrupt_handling.2.2.2.2.2 "SIGTERM"⟩

end RedditScraper
